import Mathlib

set_option linter.unusedVariables false

/-! Shallow embedding of the `atom` Go package: typed wrappers around
machine words enforcing atomic access.  Machine integers are modelled as
`Nat` (unsigned slots) or `Int` (signed slots) with explicit reduction
modulo `2 ^ w`.  Each Go wrapper struct becomes a one-field structure
holding the raw slot, and each method becomes a state-passing function
returning its result together with the state after the call.  The Go
`int`, `uint` and `uintptr` types are modelled at the 64-bit width of the
usual platforms. -/

/-- Model of `sync/atomic.CompareAndSwapUint32/Uint64/Uintptr/Pointer`:
compare the slot with `old`; on a match store `new` and report success,
otherwise leave the slot alone and report failure. -/
def casNat (slot old new : Nat) : Bool × Nat :=
  if slot = old then (true, new) else (false, slot)

/-- Model of `sync/atomic.CompareAndSwapInt32/Int64` on a signed slot. -/
def casInt (slot old new : Int) : Bool × Int :=
  if slot = old then (true, new) else (false, slot)

/-- Unsigned `w`-bit addition with wraparound, as performed by
`sync/atomic.AddUint32/AddUint64/AddUintptr`. -/
def uadd (w slot delta : Nat) : Nat := (slot + delta) % 2 ^ w

/-- Go's unsigned subtraction `a - b` at width `w` (wraps below zero). -/
def usub (w a b : Nat) : Nat := (a + (2 ^ w - b % 2 ^ w)) % 2 ^ w

/-- Go's bitwise complement `^x` on an unsigned `w`-bit integer. -/
def unot (w x : Nat) : Nat := 2 ^ w - 1 - x % 2 ^ w

/-- Reduce an integer to the signed `w`-bit range: two's-complement
wraparound as performed by Go's `int32`/`int64` arithmetic. -/
def swrap (w : Nat) (x : Int) : Int := (x + 2 ^ (w - 1)) % 2 ^ w - 2 ^ (w - 1)

/-- Signed `w`-bit addition with two's-complement wraparound, as performed
by `sync/atomic.AddInt32/AddInt64`. -/
def sadd (w : Nat) (slot delta : Int) : Int := swrap w (slot + delta)

/-- Go conversion `uintptr(x)` of a signed 64-bit value: reinterpret the
two's-complement bit pattern as unsigned. -/
def uintptrOfInt (x : Int) : Nat := (x % 2 ^ 64).toNat

/-- Go conversion `int(n)` of a `uintptr` value: reinterpret the bit
pattern as a signed 64-bit value. -/
def intOfUintptr (n : Nat) : Int :=
  if n % 2 ^ 64 < 2 ^ 63 then (n % 2 ^ 64 : Int) else (n % 2 ^ 64 : Int) - 2 ^ 64

/-- Go `atom.Bool`: a wrapper around a `uint32` slot used as a boolean. -/
structure AtomicBool where
  value : Nat
  deriving DecidableEq

/-- Go `Bool.CompareAndSwap`: encode `old` and `new` as 0/1, then CAS. -/
def AtomicBool.CompareAndSwap (b : AtomicBool) (old new : Bool) : Bool × AtomicBool :=
  let uold : Nat := if old then 1 else 0
  let unew : Nat := if new then 1 else 0
  let r := casNat b.value uold unew
  (r.1, ⟨r.2⟩)

/-- Go `Bool.Set`: store 1 for true, 0 for false. -/
def AtomicBool.Set (b : AtomicBool) (v : Bool) : AtomicBool :=
  if v then ⟨1⟩ else ⟨0⟩

/-- Go `Bool.Swap`: store the encoding of `new` and return whether the
previous slot value was greater than zero. -/
def AtomicBool.Swap (b : AtomicBool) (new : Bool) : Bool × AtomicBool :=
  if new then (decide (0 < b.value), ⟨1⟩) else (decide (0 < b.value), ⟨0⟩)

/-- Go `Bool.Value`: the slot decoded by `> 0`. -/
def AtomicBool.Value (b : AtomicBool) : Bool := decide (0 < b.value)

/-- Go `atom.Duration`: a wrapper around an `int64` slot holding a
`time.Duration`. -/
structure AtomicDuration where
  value : Int
  deriving DecidableEq

/-- Go `Duration.Add`: `atomic.AddInt64` on the slot. -/
def AtomicDuration.Add (d : AtomicDuration) (delta : Int) : Int × AtomicDuration :=
  let n := sadd 64 d.value delta
  (n, ⟨n⟩)

/-- Go `Duration.CompareAndSwap`. -/
def AtomicDuration.CompareAndSwap (d : AtomicDuration) (old new : Int) : Bool × AtomicDuration :=
  let r := casInt d.value old new
  (r.1, ⟨r.2⟩)

/-- Go `Duration.Set`. -/
def AtomicDuration.Set (d : AtomicDuration) (v : Int) : AtomicDuration := ⟨v⟩

/-- Go `Duration.Sub`: `atomic.AddInt64` of the (wrapping) negation. -/
def AtomicDuration.Sub (d : AtomicDuration) (delta : Int) : Int × AtomicDuration :=
  let n := sadd 64 d.value (swrap 64 (-delta))
  (n, ⟨n⟩)

/-- Go `Duration.Swap`. -/
def AtomicDuration.Swap (d : AtomicDuration) (new : Int) : Int × AtomicDuration :=
  (d.value, ⟨new⟩)

/-- Go `Duration.Value`. -/
def AtomicDuration.Value (d : AtomicDuration) : Int := d.value

/-- Go `atom.Int`: a wrapper around a `uintptr` slot holding an `int`. -/
structure AtomicInt where
  value : Nat
  deriving DecidableEq

/-- Go `Int.Add`: `int(atomic.AddUintptr(&value, uintptr(delta)))`. -/
def AtomicInt.Add (i : AtomicInt) (delta : Int) : Int × AtomicInt :=
  let n := uadd 64 i.value (uintptrOfInt delta)
  (intOfUintptr n, ⟨n⟩)

/-- Go `Int.CompareAndSwap`: CAS on the slot of the `uintptr` images. -/
def AtomicInt.CompareAndSwap (i : AtomicInt) (old new : Int) : Bool × AtomicInt :=
  let r := casNat i.value (uintptrOfInt old) (uintptrOfInt new)
  (r.1, ⟨r.2⟩)

/-- Go `Int.Set`. -/
def AtomicInt.Set (i : AtomicInt) (v : Int) : AtomicInt := ⟨uintptrOfInt v⟩

/-- Go `Int.Sub`: `i.Add(-delta)` with Go's wrapping negation. -/
def AtomicInt.Sub (i : AtomicInt) (delta : Int) : Int × AtomicInt :=
  AtomicInt.Add i (swrap 64 (-delta))

/-- Go `Int.Swap`. -/
def AtomicInt.Swap (i : AtomicInt) (new : Int) : Int × AtomicInt :=
  (intOfUintptr i.value, ⟨uintptrOfInt new⟩)

/-- Go `Int.Value`. -/
def AtomicInt.Value (i : AtomicInt) : Int := intOfUintptr i.value

/-- Go `atom.Int32`: a wrapper around an `int32` slot. -/
structure AtomicInt32 where
  value : Int
  deriving DecidableEq

/-- Go `Int32.Add`: `atomic.AddInt32`. -/
def AtomicInt32.Add (i : AtomicInt32) (delta : Int) : Int × AtomicInt32 :=
  let n := sadd 32 i.value delta
  (n, ⟨n⟩)

/-- Go `Int32.CompareAndSwap`. -/
def AtomicInt32.CompareAndSwap (i : AtomicInt32) (old new : Int) : Bool × AtomicInt32 :=
  let r := casInt i.value old new
  (r.1, ⟨r.2⟩)

/-- Go `Int32.Set`. -/
def AtomicInt32.Set (i : AtomicInt32) (v : Int) : AtomicInt32 := ⟨v⟩

/-- Go `Int32.Sub`: `i.Add(-delta)` with Go's wrapping `int32` negation. -/
def AtomicInt32.Sub (i : AtomicInt32) (delta : Int) : Int × AtomicInt32 :=
  AtomicInt32.Add i (swrap 32 (-delta))

/-- Go `Int32.Swap`. -/
def AtomicInt32.Swap (i : AtomicInt32) (new : Int) : Int × AtomicInt32 :=
  (i.value, ⟨new⟩)

/-- Go `Int32.Value`. -/
def AtomicInt32.Value (i : AtomicInt32) : Int := i.value

/-- Go `atom.Int64`: a wrapper around an `int64` slot. -/
structure AtomicInt64 where
  value : Int
  deriving DecidableEq

/-- Go `Int64.Add`: `atomic.AddInt64`. -/
def AtomicInt64.Add (i : AtomicInt64) (delta : Int) : Int × AtomicInt64 :=
  let n := sadd 64 i.value delta
  (n, ⟨n⟩)

/-- Go `Int64.CompareAndSwap`. -/
def AtomicInt64.CompareAndSwap (i : AtomicInt64) (old new : Int) : Bool × AtomicInt64 :=
  let r := casInt i.value old new
  (r.1, ⟨r.2⟩)

/-- Go `Int64.Set`. -/
def AtomicInt64.Set (i : AtomicInt64) (v : Int) : AtomicInt64 := ⟨v⟩

/-- Go `Int64.Sub`: `i.Add(-delta)` with Go's wrapping `int64` negation. -/
def AtomicInt64.Sub (i : AtomicInt64) (delta : Int) : Int × AtomicInt64 :=
  AtomicInt64.Add i (swrap 64 (-delta))

/-- Go `Int64.Swap`. -/
def AtomicInt64.Swap (i : AtomicInt64) (new : Int) : Int × AtomicInt64 :=
  (i.value, ⟨new⟩)

/-- Go `Int64.Value`. -/
def AtomicInt64.Value (i : AtomicInt64) : Int := i.value

/-- Go `atom.Uint`: a wrapper around a `uintptr` slot holding a `uint`. -/
structure AtomicUint where
  value : Nat
  deriving DecidableEq

/-- Go `Uint.Add`: `atomic.AddUintptr`. -/
def AtomicUint.Add (u : AtomicUint) (delta : Nat) : Nat × AtomicUint :=
  let n := uadd 64 u.value delta
  (n, ⟨n⟩)

/-- Go `Uint.CompareAndSwap`. -/
def AtomicUint.CompareAndSwap (u : AtomicUint) (old new : Nat) : Bool × AtomicUint :=
  let r := casNat u.value old new
  (r.1, ⟨r.2⟩)

/-- Go `Uint.Set`. -/
def AtomicUint.Set (u : AtomicUint) (v : Nat) : AtomicUint := ⟨v⟩

/-- Go `Uint.Sub`: `u.Add(^uint(delta - 1))`, the complement of the
wrapping decrement of `delta`. -/
def AtomicUint.Sub (u : AtomicUint) (delta : Nat) : Nat × AtomicUint :=
  AtomicUint.Add u (unot 64 (usub 64 delta 1))

/-- Go `Uint.Swap`. -/
def AtomicUint.Swap (u : AtomicUint) (new : Nat) : Nat × AtomicUint :=
  (u.value, ⟨new⟩)

/-- Go `Uint.Value`. -/
def AtomicUint.Value (u : AtomicUint) : Nat := u.value

/-- Go `atom.Uint32`: a wrapper around a `uint32` slot. -/
structure AtomicUint32 where
  value : Nat
  deriving DecidableEq

/-- Go `Uint32.Add`: `atomic.AddUint32`. -/
def AtomicUint32.Add (u : AtomicUint32) (delta : Nat) : Nat × AtomicUint32 :=
  let n := uadd 32 u.value delta
  (n, ⟨n⟩)

/-- Go `Uint32.CompareAndSwap`. -/
def AtomicUint32.CompareAndSwap (u : AtomicUint32) (old new : Nat) : Bool × AtomicUint32 :=
  let r := casNat u.value old new
  (r.1, ⟨r.2⟩)

/-- Go `Uint32.Set`. -/
def AtomicUint32.Set (u : AtomicUint32) (v : Nat) : AtomicUint32 := ⟨v⟩

/-- Go `Uint32.Sub`: `u.Add(^uint32(delta - 1))`. -/
def AtomicUint32.Sub (u : AtomicUint32) (delta : Nat) : Nat × AtomicUint32 :=
  AtomicUint32.Add u (unot 32 (usub 32 delta 1))

/-- Go `Uint32.Swap`. -/
def AtomicUint32.Swap (u : AtomicUint32) (new : Nat) : Nat × AtomicUint32 :=
  (u.value, ⟨new⟩)

/-- Go `Uint32.Value`. -/
def AtomicUint32.Value (u : AtomicUint32) : Nat := u.value

/-- Go `atom.Uint64`: a wrapper around a `uint64` slot. -/
structure AtomicUint64 where
  value : Nat
  deriving DecidableEq

/-- Go `Uint64.Add`: `atomic.AddUint64`. -/
def AtomicUint64.Add (u : AtomicUint64) (delta : Nat) : Nat × AtomicUint64 :=
  let n := uadd 64 u.value delta
  (n, ⟨n⟩)

/-- Go `Uint64.CompareAndSwap`. -/
def AtomicUint64.CompareAndSwap (u : AtomicUint64) (old new : Nat) : Bool × AtomicUint64 :=
  let r := casNat u.value old new
  (r.1, ⟨r.2⟩)

/-- Go `Uint64.Set`. -/
def AtomicUint64.Set (u : AtomicUint64) (v : Nat) : AtomicUint64 := ⟨v⟩

/-- Go `Uint64.Sub`: `u.Add(^uint64(delta - 1))`. -/
def AtomicUint64.Sub (u : AtomicUint64) (delta : Nat) : Nat × AtomicUint64 :=
  AtomicUint64.Add u (unot 64 (usub 64 delta 1))

/-- Go `Uint64.Swap`. -/
def AtomicUint64.Swap (u : AtomicUint64) (new : Nat) : Nat × AtomicUint64 :=
  (u.value, ⟨new⟩)

/-- Go `Uint64.Value`. -/
def AtomicUint64.Value (u : AtomicUint64) : Nat := u.value

/-- Go `atom.Uintptr`: a wrapper around a `uintptr` slot. -/
structure AtomicUintptr where
  value : Nat
  deriving DecidableEq

/-- Go `Uintptr.Add`: `atomic.AddUintptr`. -/
def AtomicUintptr.Add (u : AtomicUintptr) (delta : Nat) : Nat × AtomicUintptr :=
  let n := uadd 64 u.value delta
  (n, ⟨n⟩)

/-- Go `Uintptr.CompareAndSwap`. -/
def AtomicUintptr.CompareAndSwap (u : AtomicUintptr) (old new : Nat) : Bool × AtomicUintptr :=
  let r := casNat u.value old new
  (r.1, ⟨r.2⟩)

/-- Go `Uintptr.Set`. -/
def AtomicUintptr.Set (u : AtomicUintptr) (v : Nat) : AtomicUintptr := ⟨v⟩

/-- Go `Uintptr.Sub`: `u.Add(^uintptr(delta - 1))`. -/
def AtomicUintptr.Sub (u : AtomicUintptr) (delta : Nat) : Nat × AtomicUintptr :=
  AtomicUintptr.Add u (unot 64 (usub 64 delta 1))

/-- Go `Uintptr.Swap`. -/
def AtomicUintptr.Swap (u : AtomicUintptr) (new : Nat) : Nat × AtomicUintptr :=
  (u.value, ⟨new⟩)

/-- Go `Uintptr.Value`. -/
def AtomicUintptr.Value (u : AtomicUintptr) : Nat := u.value

/-- Go `atom.Pointer`: a wrapper around an `unsafe.Pointer` slot; addresses
are modelled as opaque natural numbers. -/
structure AtomicPointer where
  value : Nat
  deriving DecidableEq

/-- Go `Pointer.CompareAndSwap`. -/
def AtomicPointer.CompareAndSwap (p : AtomicPointer) (old new : Nat) : Bool × AtomicPointer :=
  let r := casNat p.value old new
  (r.1, ⟨r.2⟩)

/-- Go `Pointer.Set`. -/
def AtomicPointer.Set (p : AtomicPointer) (v : Nat) : AtomicPointer := ⟨v⟩

/-- Go `Pointer.Swap`. -/
def AtomicPointer.Swap (p : AtomicPointer) (new : Nat) : Nat × AtomicPointer :=
  (p.value, ⟨new⟩)

/-- Go `Pointer.Value`. -/
def AtomicPointer.Value (p : AtomicPointer) : Nat := p.value

/-- Go `float32` values, identified by their IEEE-754 bit pattern:
`math.Float32bits` is a bijection between `float32` values and `uint32`,
so a `float32` value IS its 32-bit pattern. -/
structure GoFloat32 where
  bits : Nat
  deriving DecidableEq

/-- Go `math.Float32bits`: the bit pattern of a `float32` value. -/
def Float32bits (f : GoFloat32) : Nat := f.bits

/-- Go `math.Float32frombits`. -/
def Float32frombits (n : Nat) : GoFloat32 := ⟨n⟩

/-- Go `float64` values, identified by their IEEE-754 bit pattern. -/
structure GoFloat64 where
  bits : Nat
  deriving DecidableEq

/-- Go `math.Float64bits`: the bit pattern of a `float64` value. -/
def Float64bits (f : GoFloat64) : Nat := f.bits

/-- Go `math.Float64frombits`. -/
def Float64frombits (n : Nat) : GoFloat64 := ⟨n⟩

/-- Go `atom.Float32`: a wrapper around a `uint32` slot holding the bit
pattern of a `float32`. -/
structure AtomicFloat32 where
  value : Nat
  deriving DecidableEq

/-- Go `Float32.CompareAndSwap`: CAS of the raw bit patterns. -/
def AtomicFloat32.CompareAndSwap (f : AtomicFloat32) (old new : GoFloat32) : Bool × AtomicFloat32 :=
  let r := casNat f.value (Float32bits old) (Float32bits new)
  (r.1, ⟨r.2⟩)

/-- Go `Float32.Set`: store the bit pattern. -/
def AtomicFloat32.Set (f : AtomicFloat32) (v : GoFloat32) : AtomicFloat32 :=
  ⟨Float32bits v⟩

/-- Go `Float32.Swap`. -/
def AtomicFloat32.Swap (f : AtomicFloat32) (new : GoFloat32) : GoFloat32 × AtomicFloat32 :=
  (Float32frombits f.value, ⟨Float32bits new⟩)

/-- Go `Float32.Value`. -/
def AtomicFloat32.Value (f : AtomicFloat32) : GoFloat32 := Float32frombits f.value

/-- Go `atom.Float64`: a wrapper around a `uint64` slot holding the bit
pattern of a `float64`. -/
structure AtomicFloat64 where
  value : Nat
  deriving DecidableEq

/-- Go `Float64.CompareAndSwap`: CAS of the raw bit patterns. -/
def AtomicFloat64.CompareAndSwap (f : AtomicFloat64) (old new : GoFloat64) : Bool × AtomicFloat64 :=
  let r := casNat f.value (Float64bits old) (Float64bits new)
  (r.1, ⟨r.2⟩)

/-- Go `Float64.Set`: store the bit pattern. -/
def AtomicFloat64.Set (f : AtomicFloat64) (v : GoFloat64) : AtomicFloat64 :=
  ⟨Float64bits v⟩

/-- Go `Float64.Swap`. -/
def AtomicFloat64.Swap (f : AtomicFloat64) (new : GoFloat64) : GoFloat64 × AtomicFloat64 :=
  (Float64frombits f.value, ⟨Float64bits new⟩)

/-- Go `Float64.Value`. -/
def AtomicFloat64.Value (f : AtomicFloat64) : GoFloat64 := Float64frombits f.value

/-- Go `atom.String`: a wrapper around a `sync/atomic.Value` slot holding a
string; `none` models the never-stored state of the `atomic.Value`. -/
structure AtomicString where
  value : Option String
  deriving DecidableEq

/-- Go `String.Set`. -/
def AtomicString.Set (s : AtomicString) (v : String) : AtomicString := ⟨some v⟩

/-- Go `String.Value`: the empty string when nothing was ever stored. -/
def AtomicString.Value (s : AtomicString) : String :=
  match s.value with
  | none => ""
  | some v => v

/-- Go non-nil `error` values as seen by the `atom` package: either the
package-private sentinel `errNil = errors.New("nil")` (a fresh allocation,
distinct from every error value a client can construct or obtain) or a
client-created error identified by an id. -/
inductive GoErr where
  | errNil
  | client (id : Nat)
  deriving DecidableEq

/-- Go `atom.Error`: a wrapper around a `sync/atomic.Value` slot holding an
error; `none` models the never-stored state of the `atomic.Value`.  A Go
`error` argument or result is `Option GoErr`, with `none` for Go `nil`. -/
structure AtomicError where
  value : Option GoErr
  deriving DecidableEq

/-- Go `Error.Set`: a nil argument is replaced by the sentinel `errNil`
before the store, since `atomic.Value` cannot store nil. -/
def AtomicError.Set (e : AtomicError) (v : Option GoErr) : AtomicError :=
  match v with
  | none => ⟨some GoErr.errNil⟩
  | some err => ⟨some err⟩

/-- Go `Error.Value`: nil when nothing was stored or when the slot holds
the sentinel `errNil`; otherwise the stored error. -/
def AtomicError.Value (e : AtomicError) : Option GoErr :=
  match e.value with
  | none => none
  | some err => if err = GoErr.errNil then none else some err

/-- Go `interface{}` values stored through `atom.Value`: a concrete type
identifier paired with a payload. -/
structure GoAny where
  ty : Nat
  payload : Nat
  deriving DecidableEq

/-- Go `atom.Value`: a wrapper around a `sync/atomic.Value` slot; `none`
models the never-stored state. -/
structure AtomicValue where
  value : Option GoAny
  deriving DecidableEq

/-- Go `Value.Set`, i.e. `sync/atomic.Value.Store`: storing nil panics, and
storing a value whose concrete type differs from the type already stored
panics; otherwise the value is stored.  The boolean result records whether
the call panicked; on a panic the slot is unchanged (`atomic.Value.Store`
panics before mutating). -/
def AtomicValue.Set (s : AtomicValue) (v : Option GoAny) : Bool × AtomicValue :=
  match v with
  | none => (true, s)
  | some a =>
    match s.value with
    | none => (false, ⟨some a⟩)
    | some b => if a.ty = b.ty then (false, ⟨some a⟩) else (true, s)

/-- Go `Value.Value`, i.e. `sync/atomic.Value.Load`: nil iff never set. -/
def AtomicValue.Value (s : AtomicValue) : Option GoAny := s.value

/-- Classification of an IEEE-754 bit pattern by the value it denotes:
a NaN, a signed infinity, or a finite rational number. -/
inductive FloatClass where
  | nan
  | inf (neg : Bool)
  | finite (q : ℚ)
  deriving DecidableEq

/-- Numeric IEEE-754 equality of two classified floats: NaN compares
unequal to everything (itself included); +0.0 and -0.0 are both the finite
rational 0 and hence numerically equal. -/
def FloatClass.numEq : FloatClass → FloatClass → Bool
  | FloatClass.inf a, FloatClass.inf b => a == b
  | FloatClass.finite p, FloatClass.finite q => p == q
  | _, _ => false

/-- Decode a `float32` (IEEE-754 binary32) bit pattern into the value it
denotes: sign bit, 8 exponent bits, 23 mantissa bits; exponent 255 encodes
infinities and NaNs, exponent 0 the subnormals. -/
def decodeFloat32 (f : GoFloat32) : FloatClass :=
  let b := f.bits % 2 ^ 32
  let sign := b / 2 ^ 31
  let e := b / 2 ^ 23 % 2 ^ 8
  let m := b % 2 ^ 23
  if e = 255 then
    if m = 0 then FloatClass.inf (decide (sign = 1)) else FloatClass.nan
  else
    let sig : Nat := if e = 0 then 2 * m else (2 ^ 23 + m) * 2 ^ e
    let mag : ℚ := (sig : ℚ) / 2 ^ 150
    FloatClass.finite (if sign = 1 then -mag else mag)

/-- Decode a `float64` (IEEE-754 binary64) bit pattern into the value it
denotes: sign bit, 11 exponent bits, 52 mantissa bits. -/
def decodeFloat64 (f : GoFloat64) : FloatClass :=
  let b := f.bits % 2 ^ 64
  let sign := b / 2 ^ 63
  let e := b / 2 ^ 52 % 2 ^ 11
  let m := b % 2 ^ 52
  if e = 2047 then
    if m = 0 then FloatClass.inf (decide (sign = 1)) else FloatClass.nan
  else
    let sig : Nat := if e = 0 then 2 * m else (2 ^ 52 + m) * 2 ^ e
    let mag : ℚ := (sig : ℚ) / 2 ^ 1075
    FloatClass.finite (if sign = 1 then -mag else mag)

theorem casNat_spec (slot old new : Nat) :
    casNat slot old new = if old = slot then (true, new) else (false, slot) := by
  unfold casNat
  rcases eq_or_ne slot old with h | h
  · subst h; simp
  · simp [h, Ne.symm h]

theorem casInt_spec (slot old new : Int) :
    casInt slot old new = if old = slot then (true, new) else (false, slot) := by
  unfold casInt
  rcases eq_or_ne slot old with h | h
  · subst h; simp
  · simp [h, Ne.symm h]

theorem uintptrOfInt_inj {x y : Int} (hx1 : -2 ^ 63 ≤ x) (hx2 : x < 2 ^ 63)
    (hy1 : -2 ^ 63 ≤ y) (hy2 : y < 2 ^ 63) :
    uintptrOfInt x = uintptrOfInt y ↔ x = y := by
  have h63 : (2 : Int) ^ 63 = 9223372036854775808 := by norm_num
  have h64 : (2 : Int) ^ 64 = 18446744073709551616 := by norm_num
  unfold uintptrOfInt
  rw [h63] at hx1 hx2 hy1 hy2
  rw [h64]
  omega

theorem intOfUintptr_uintptrOfInt {x : Int} (h1 : -2 ^ 63 ≤ x) (h2 : x < 2 ^ 63) :
    intOfUintptr (uintptrOfInt x) = x := by
  have h63 : (2 : Int) ^ 63 = 9223372036854775808 := by norm_num
  have h64 : (2 : Int) ^ 64 = 18446744073709551616 := by norm_num
  have hn63 : (2 : Nat) ^ 63 = 9223372036854775808 := by norm_num
  have hn64 : (2 : Nat) ^ 64 = 18446744073709551616 := by norm_num
  unfold intOfUintptr uintptrOfInt
  rw [h63] at h1 h2
  rw [h64, hn63, hn64]
  split <;> omega

/-- C9: a freshly created (zero-initialized, never-written) instance of
every wrapper type returns the zero value of the wrapped type from
`Value()`: false for Bool, 0 for the integer, duration and pointer
wrappers, the bit pattern of +0.0 (which denotes the rational 0) for
Float32 and Float64, the empty string for String, and nil for Error and
the generic Value. -/
theorem fresh_value_zero :
    AtomicBool.Value ⟨0⟩ = false ∧
    AtomicDuration.Value ⟨0⟩ = 0 ∧
    AtomicInt.Value ⟨0⟩ = 0 ∧
    AtomicInt32.Value ⟨0⟩ = 0 ∧
    AtomicInt64.Value ⟨0⟩ = 0 ∧
    AtomicUint.Value ⟨0⟩ = 0 ∧
    AtomicUint32.Value ⟨0⟩ = 0 ∧
    AtomicUint64.Value ⟨0⟩ = 0 ∧
    AtomicUintptr.Value ⟨0⟩ = 0 ∧
    AtomicPointer.Value ⟨0⟩ = 0 ∧
    AtomicFloat32.Value ⟨0⟩ = Float32frombits 0 ∧
    decodeFloat32 (AtomicFloat32.Value ⟨0⟩) = FloatClass.finite 0 ∧
    AtomicFloat64.Value ⟨0⟩ = Float64frombits 0 ∧
    decodeFloat64 (AtomicFloat64.Value ⟨0⟩) = FloatClass.finite 0 ∧
    AtomicString.Value ⟨none⟩ = "" ∧
    AtomicError.Value ⟨none⟩ = none ∧
    AtomicValue.Value ⟨none⟩ = none := by
  refine ⟨rfl, rfl, rfl, rfl, rfl, rfl, rfl, rfl, rfl, rfl, rfl, ?_, rfl, ?_, rfl, rfl, rfl⟩
  · norm_num [decodeFloat32, AtomicFloat32.Value, Float32frombits]
  · norm_num [decodeFloat64, AtomicFloat64.Value, Float64frombits]

/-- C1: for every wrapper type with CompareAndSwap (Bool, Duration, Int,
Int32, Int64, Uint, Uint32, Uint64, Uintptr, Float32, Float64, Pointer)
and every current value `cur` and arguments `old`, `new`:
`CompareAndSwap(old, new)` returns true and the stored value becomes `new`
if `old` equals `cur` (bitwise for floats), and otherwise returns false
and the stored value stays equal to `cur`.  The wrapper holding `cur` is
written as `Set ⟨0⟩ cur`; for the Go `int` wrapper the values are subject
to the 64-bit range of the Go `int` type. -/
theorem cas_correct :
    (∀ cur old new : Bool,
      AtomicBool.CompareAndSwap (AtomicBool.Set ⟨0⟩ cur) old new =
        if old = cur then (true, AtomicBool.Set ⟨0⟩ new)
        else (false, AtomicBool.Set ⟨0⟩ cur)) ∧
    (∀ cur old new : Int,
      AtomicDuration.CompareAndSwap (AtomicDuration.Set ⟨0⟩ cur) old new =
        if old = cur then (true, AtomicDuration.Set ⟨0⟩ new)
        else (false, AtomicDuration.Set ⟨0⟩ cur)) ∧
    (∀ cur old new : Int, -2 ^ 63 ≤ cur → cur < 2 ^ 63 → -2 ^ 63 ≤ old → old < 2 ^ 63 →
      AtomicInt.CompareAndSwap (AtomicInt.Set ⟨0⟩ cur) old new =
        if old = cur then (true, AtomicInt.Set ⟨0⟩ new)
        else (false, AtomicInt.Set ⟨0⟩ cur)) ∧
    (∀ cur old new : Int,
      AtomicInt32.CompareAndSwap (AtomicInt32.Set ⟨0⟩ cur) old new =
        if old = cur then (true, AtomicInt32.Set ⟨0⟩ new)
        else (false, AtomicInt32.Set ⟨0⟩ cur)) ∧
    (∀ cur old new : Int,
      AtomicInt64.CompareAndSwap (AtomicInt64.Set ⟨0⟩ cur) old new =
        if old = cur then (true, AtomicInt64.Set ⟨0⟩ new)
        else (false, AtomicInt64.Set ⟨0⟩ cur)) ∧
    (∀ cur old new : Nat,
      AtomicUint.CompareAndSwap (AtomicUint.Set ⟨0⟩ cur) old new =
        if old = cur then (true, AtomicUint.Set ⟨0⟩ new)
        else (false, AtomicUint.Set ⟨0⟩ cur)) ∧
    (∀ cur old new : Nat,
      AtomicUint32.CompareAndSwap (AtomicUint32.Set ⟨0⟩ cur) old new =
        if old = cur then (true, AtomicUint32.Set ⟨0⟩ new)
        else (false, AtomicUint32.Set ⟨0⟩ cur)) ∧
    (∀ cur old new : Nat,
      AtomicUint64.CompareAndSwap (AtomicUint64.Set ⟨0⟩ cur) old new =
        if old = cur then (true, AtomicUint64.Set ⟨0⟩ new)
        else (false, AtomicUint64.Set ⟨0⟩ cur)) ∧
    (∀ cur old new : Nat,
      AtomicUintptr.CompareAndSwap (AtomicUintptr.Set ⟨0⟩ cur) old new =
        if old = cur then (true, AtomicUintptr.Set ⟨0⟩ new)
        else (false, AtomicUintptr.Set ⟨0⟩ cur)) ∧
    (∀ cur old new : GoFloat32,
      AtomicFloat32.CompareAndSwap (AtomicFloat32.Set ⟨0⟩ cur) old new =
        if old = cur then (true, AtomicFloat32.Set ⟨0⟩ new)
        else (false, AtomicFloat32.Set ⟨0⟩ cur)) ∧
    (∀ cur old new : GoFloat64,
      AtomicFloat64.CompareAndSwap (AtomicFloat64.Set ⟨0⟩ cur) old new =
        if old = cur then (true, AtomicFloat64.Set ⟨0⟩ new)
        else (false, AtomicFloat64.Set ⟨0⟩ cur)) ∧
    (∀ cur old new : Nat,
      AtomicPointer.CompareAndSwap (AtomicPointer.Set ⟨0⟩ cur) old new =
        if old = cur then (true, AtomicPointer.Set ⟨0⟩ new)
        else (false, AtomicPointer.Set ⟨0⟩ cur)) := by
  refine ⟨by decide, ?_, ?_, ?_, ?_, ?_, ?_, ?_, ?_, ?_, ?_, ?_⟩
  · intro cur old new
    by_cases h : old = cur <;>
      simp [AtomicDuration.CompareAndSwap, AtomicDuration.Set, casInt_spec, h]
  · intro cur old new hc1 hc2 ho1 ho2
    by_cases h : old = cur
    · subst h
      simp [AtomicInt.CompareAndSwap, AtomicInt.Set, casNat_spec]
    · have hne : uintptrOfInt old ≠ uintptrOfInt cur := by
        intro he
        exact h ((uintptrOfInt_inj ho1 ho2 hc1 hc2).mp he)
      simp [AtomicInt.CompareAndSwap, AtomicInt.Set, casNat_spec, h, hne]
  · intro cur old new
    by_cases h : old = cur <;>
      simp [AtomicInt32.CompareAndSwap, AtomicInt32.Set, casInt_spec, h]
  · intro cur old new
    by_cases h : old = cur <;>
      simp [AtomicInt64.CompareAndSwap, AtomicInt64.Set, casInt_spec, h]
  · intro cur old new
    by_cases h : old = cur <;>
      simp [AtomicUint.CompareAndSwap, AtomicUint.Set, casNat_spec, h]
  · intro cur old new
    by_cases h : old = cur <;>
      simp [AtomicUint32.CompareAndSwap, AtomicUint32.Set, casNat_spec, h]
  · intro cur old new
    by_cases h : old = cur <;>
      simp [AtomicUint64.CompareAndSwap, AtomicUint64.Set, casNat_spec, h]
  · intro cur old new
    by_cases h : old = cur <;>
      simp [AtomicUintptr.CompareAndSwap, AtomicUintptr.Set, casNat_spec, h]
  · intro cur old new
    by_cases h : old = cur
    · subst h
      simp [AtomicFloat32.CompareAndSwap, AtomicFloat32.Set, casNat_spec]
    · have hb : Float32bits old ≠ Float32bits cur := by
        intro he
        apply h
        cases old
        cases cur
        simpa [Float32bits] using he
      simp [AtomicFloat32.CompareAndSwap, AtomicFloat32.Set, casNat_spec, h, hb]
  · intro cur old new
    by_cases h : old = cur
    · subst h
      simp [AtomicFloat64.CompareAndSwap, AtomicFloat64.Set, casNat_spec]
    · have hb : Float64bits old ≠ Float64bits cur := by
        intro he
        apply h
        cases old
        cases cur
        simpa [Float64bits] using he
      simp [AtomicFloat64.CompareAndSwap, AtomicFloat64.Set, casNat_spec, h, hb]
  · intro cur old new
    by_cases h : old = cur <;>
      simp [AtomicPointer.CompareAndSwap, AtomicPointer.Set, casNat_spec, h]

/-- Witness for `cas_correct`: the Go `int` conjunct applied at concrete
in-range values, both in the matching and in the mismatching case. -/
theorem cas_correct_witness :
    AtomicInt.CompareAndSwap (AtomicInt.Set ⟨0⟩ 7) 7 9 = (true, AtomicInt.Set ⟨0⟩ 9) ∧
    AtomicInt.CompareAndSwap (AtomicInt.Set ⟨0⟩ 7) 5 9 = (false, AtomicInt.Set ⟨0⟩ 7) := by
  have h := cas_correct.2.2.1
  constructor
  · have h1 := h 7 7 9 (by norm_num) (by norm_num) (by norm_num) (by norm_num)
    simpa using h1
  · have h2 := h 7 5 9 (by norm_num) (by norm_num) (by norm_num) (by norm_num)
    simpa using h2

/-- C2: for every wrapper type and every value `v` of the wrapped type,
calling `Set(v)` and then `Value()` returns exactly `v` (bit-for-bit for
Float32 and Float64, whose values are identified with their bit patterns),
regardless of the state the wrapper was in before the Set.  For the Go
`int` wrapper the value is subject to the 64-bit range of the type; for
the Error wrapper `v` ranges over the error values a client can hold,
which never include the package-private sentinel `errNil` (a fresh private
allocation); for the generic Value wrapper the round-trip is stated for
the Sets that succeed (do not panic). -/
theorem set_value_roundtrip :
    (∀ (b : AtomicBool) (v : Bool), (b.Set v).Value = v) ∧
    (∀ (d : AtomicDuration) (v : Int), (d.Set v).Value = v) ∧
    (∀ (i : AtomicInt) (v : Int), -2 ^ 63 ≤ v → v < 2 ^ 63 → (i.Set v).Value = v) ∧
    (∀ (i : AtomicInt32) (v : Int), (i.Set v).Value = v) ∧
    (∀ (i : AtomicInt64) (v : Int), (i.Set v).Value = v) ∧
    (∀ (u : AtomicUint) (v : Nat), (u.Set v).Value = v) ∧
    (∀ (u : AtomicUint32) (v : Nat), (u.Set v).Value = v) ∧
    (∀ (u : AtomicUint64) (v : Nat), (u.Set v).Value = v) ∧
    (∀ (u : AtomicUintptr) (v : Nat), (u.Set v).Value = v) ∧
    (∀ (p : AtomicPointer) (v : Nat), (p.Set v).Value = v) ∧
    (∀ (f : AtomicFloat32) (v : GoFloat32), (f.Set v).Value = v) ∧
    (∀ (f : AtomicFloat64) (v : GoFloat64), (f.Set v).Value = v) ∧
    (∀ (s : AtomicString) (v : String), (s.Set v).Value = v) ∧
    (∀ (e : AtomicError) (v : Option GoErr), v ≠ some GoErr.errNil →
      (e.Set v).Value = v) ∧
    (∀ (s : AtomicValue) (a : GoAny), (s.Set (some a)).1 = false →
      AtomicValue.Value (s.Set (some a)).2 = some a) := by
  refine ⟨?_, ?_, ?_, ?_, ?_, ?_, ?_, ?_, ?_, ?_, ?_, ?_, ?_, ?_, ?_⟩
  · intro b v
    cases v <;> rfl
  · intro d v
    rfl
  · intro i v h1 h2
    exact intOfUintptr_uintptrOfInt h1 h2
  · intro i v
    rfl
  · intro i v
    rfl
  · intro u v
    rfl
  · intro u v
    rfl
  · intro u v
    rfl
  · intro u v
    rfl
  · intro p v
    rfl
  · intro f v
    rfl
  · intro f v
    rfl
  · intro s v
    rfl
  · intro e v hv
    match v with
    | none => rfl
    | some err =>
      have : err ≠ GoErr.errNil := fun h => hv (by rw [h])
      simp [AtomicError.Set, AtomicError.Value, this]
  · intro s a h
    match v : s.value with
    | none =>
      simp [AtomicValue.Set, v, AtomicValue.Value]
    | some b =>
      simp only [AtomicValue.Set, v] at h ⊢
      by_cases hty : a.ty = b.ty
      · simp [hty, AtomicValue.Value]
      · simp [hty] at h

/-- Witness for `set_value_roundtrip`: the Go `int`, Error and generic
Value conjuncts applied at concrete values. -/
theorem set_value_roundtrip_witness :
    AtomicInt.Value (AtomicInt.Set ⟨0⟩ 5) = 5 ∧
    AtomicError.Value (AtomicError.Set ⟨none⟩ (some (GoErr.client 0))) = some (GoErr.client 0) ∧
    AtomicValue.Value (AtomicValue.Set ⟨none⟩ (some ⟨1, 2⟩)).2 = some ⟨1, 2⟩ := by
  obtain ⟨-, -, hInt, -, -, -, -, -, -, -, -, -, -, hErr, hVal⟩ := set_value_roundtrip
  refine ⟨hInt ⟨0⟩ 5 (by norm_num) (by norm_num), hErr ⟨none⟩ _ (by decide), hVal ⟨none⟩ ⟨1, 2⟩ rfl⟩

/-- Mathematical statement of signed two's-complement wraparound: `r` is
the unique value in the signed `w`-bit range congruent to the exact
integer `x` modulo `2 ^ w`. -/
def wrapsToS (w : Nat) (x r : Int) : Prop :=
  -2 ^ (w - 1) ≤ r ∧ r < 2 ^ (w - 1) ∧ (2 ^ w : Int) ∣ r - x

/-- Mathematical statement of unsigned wraparound: `r` is the unique
`w`-bit value congruent to the exact integer `x` modulo `2 ^ w`. -/
def wrapsToU (w : Nat) (x : Int) (r : Nat) : Prop :=
  r < 2 ^ w ∧ (2 ^ w : Int) ∣ (r : Int) - x

theorem swrap_bounds (w : Nat) (hw : 0 < w) (x : Int) :
    -2 ^ (w - 1) ≤ swrap w x ∧ swrap w x < 2 ^ (w - 1) := by
  have hpos : (0 : Int) < 2 ^ w := by positivity
  have h2 : (2 : Int) ^ w = 2 ^ (w - 1) * 2 := by
    rw [← pow_succ]
    congr 1
    omega
  unfold swrap
  have hnn := Int.emod_nonneg (x + 2 ^ (w - 1)) (ne_of_gt hpos)
  have hlt := Int.emod_lt_of_pos (x + 2 ^ (w - 1)) hpos
  omega

theorem swrap_dvd (w : Nat) (x : Int) : (2 ^ w : Int) ∣ swrap w x - x := by
  unfold swrap
  rw [Int.emod_def]
  exact ⟨-((x + 2 ^ (w - 1)) / 2 ^ w), by ring⟩

theorem wrapsToS_swrap (w : Nat) (hw : 0 < w) {x y : Int}
    (h : (2 ^ w : Int) ∣ x - y) : wrapsToS w y (swrap w x) := by
  obtain ⟨b1, b2⟩ := swrap_bounds w hw x
  refine ⟨b1, b2, ?_⟩
  have hd := swrap_dvd w x
  have heq : swrap w x - y = (swrap w x - x) + (x - y) := by ring
  rw [heq]
  exact dvd_add hd h

theorem wrapsToU_mod (w : Nat) (a : Nat) (x : Int) (h : (2 ^ w : Int) ∣ (a : Int) - x) :
    wrapsToU w x (a % 2 ^ w) := by
  have hpos : 0 < 2 ^ w := by positivity
  refine ⟨Nat.mod_lt _ hpos, ?_⟩
  have hc : ((a % 2 ^ w : Nat) : Int) = (a : Int) % 2 ^ w := by push_cast; ring
  rw [hc, Int.emod_def]
  have heq : (a : Int) - 2 ^ w * ((a : Int) / 2 ^ w) - x
      = ((a : Int) - x) + 2 ^ w * (-((a : Int) / 2 ^ w)) := by ring
  rw [heq]
  exact dvd_add h ⟨-((a : Int) / 2 ^ w), rfl⟩

theorem unot_usub_one32 (delta : Nat) (hd : delta < 2 ^ 32) :
    unot 32 (usub 32 delta 1) = (2 ^ 32 - delta) % 2 ^ 32 := by
  have h : (2 : Nat) ^ 32 = 4294967296 := by norm_num
  unfold unot usub
  simp only [h] at hd ⊢
  omega

theorem unot_usub_one64 (delta : Nat) (hd : delta < 2 ^ 64) :
    unot 64 (usub 64 delta 1) = (2 ^ 64 - delta) % 2 ^ 64 := by
  have h : (2 : Nat) ^ 64 = 18446744073709551616 := by norm_num
  unfold unot usub
  simp only [h] at hd ⊢
  omega

theorem uintptrOfInt_intOfUintptr (n : Nat) (h : n < 2 ^ 64) :
    uintptrOfInt (intOfUintptr n) = n := by
  have h64 : (2 : Int) ^ 64 = 18446744073709551616 := by norm_num
  have h63 : (2 : Int) ^ 63 = 9223372036854775808 := by norm_num
  have hn64 : (2 : Nat) ^ 64 = 18446744073709551616 := by norm_num
  unfold uintptrOfInt intOfUintptr
  simp only [h64, h63, hn64] at *
  split <;> omega

theorem intOfUintptr_bounds (n : Nat) :
    -2 ^ 63 ≤ intOfUintptr n ∧ intOfUintptr n < 2 ^ 63 := by
  have h64 : (2 : Int) ^ 64 = 18446744073709551616 := by norm_num
  have h63 : (2 : Int) ^ 63 = 9223372036854775808 := by norm_num
  unfold intOfUintptr
  simp only [h64, h63]
  split <;> omega

theorem intOfUintptr_dvd (n : Nat) : (2 ^ 64 : Int) ∣ intOfUintptr n - n := by
  have h64 : (2 : Int) ^ 64 = 18446744073709551616 := by norm_num
  have h63 : (2 : Int) ^ 63 = 9223372036854775808 := by norm_num
  unfold intOfUintptr
  simp only [h64, h63]
  split <;> omega

theorem uintptrOfInt_dvd (x : Int) : (2 ^ 64 : Int) ∣ (uintptrOfInt x : Int) - x := by
  have h64 : (2 : Int) ^ 64 = 18446744073709551616 := by norm_num
  unfold uintptrOfInt
  simp only [h64]
  omega

/-- C3: for the integer-family wrappers (Int, Int32, Int64, Uint, Uint32,
Uint64, Uintptr, Duration), Add and Sub wrap around on overflow/underflow
with exact two's-complement fixed-width semantics: the returned value is
the unique representable value congruent to the exact sum (respectively
difference) modulo `2 ^ w`, and it is also the value left stored in the
wrapper.  In particular, for an Int32 wrapper holding 2147483647, `Add(1)`
returns -2147483648 and leaves the wrapper holding -2147483648, and
symmetrically `Sub(1)` at the minimum value wraps to the maximum. -/
theorem add_sub_wraparound :
    (∀ cur delta : Int,
      wrapsToS 64 (cur + delta) (AtomicInt.Add (AtomicInt.Set ⟨0⟩ cur) delta).1 ∧
      (AtomicInt.Add (AtomicInt.Set ⟨0⟩ cur) delta).2 =
        AtomicInt.Set ⟨0⟩ (AtomicInt.Add (AtomicInt.Set ⟨0⟩ cur) delta).1 ∧
      wrapsToS 64 (cur - delta) (AtomicInt.Sub (AtomicInt.Set ⟨0⟩ cur) delta).1 ∧
      (AtomicInt.Sub (AtomicInt.Set ⟨0⟩ cur) delta).2 =
        AtomicInt.Set ⟨0⟩ (AtomicInt.Sub (AtomicInt.Set ⟨0⟩ cur) delta).1) ∧
    (∀ cur delta : Int,
      wrapsToS 32 (cur + delta) (AtomicInt32.Add (AtomicInt32.Set ⟨0⟩ cur) delta).1 ∧
      (AtomicInt32.Add (AtomicInt32.Set ⟨0⟩ cur) delta).2 =
        AtomicInt32.Set ⟨0⟩ (AtomicInt32.Add (AtomicInt32.Set ⟨0⟩ cur) delta).1 ∧
      wrapsToS 32 (cur - delta) (AtomicInt32.Sub (AtomicInt32.Set ⟨0⟩ cur) delta).1 ∧
      (AtomicInt32.Sub (AtomicInt32.Set ⟨0⟩ cur) delta).2 =
        AtomicInt32.Set ⟨0⟩ (AtomicInt32.Sub (AtomicInt32.Set ⟨0⟩ cur) delta).1) ∧
    (∀ cur delta : Int,
      wrapsToS 64 (cur + delta) (AtomicInt64.Add (AtomicInt64.Set ⟨0⟩ cur) delta).1 ∧
      (AtomicInt64.Add (AtomicInt64.Set ⟨0⟩ cur) delta).2 =
        AtomicInt64.Set ⟨0⟩ (AtomicInt64.Add (AtomicInt64.Set ⟨0⟩ cur) delta).1 ∧
      wrapsToS 64 (cur - delta) (AtomicInt64.Sub (AtomicInt64.Set ⟨0⟩ cur) delta).1 ∧
      (AtomicInt64.Sub (AtomicInt64.Set ⟨0⟩ cur) delta).2 =
        AtomicInt64.Set ⟨0⟩ (AtomicInt64.Sub (AtomicInt64.Set ⟨0⟩ cur) delta).1) ∧
    (∀ cur delta : Nat,
      wrapsToU 64 ((cur : Int) + delta) (AtomicUint.Add (AtomicUint.Set ⟨0⟩ cur) delta).1 ∧
      (AtomicUint.Add (AtomicUint.Set ⟨0⟩ cur) delta).2 =
        AtomicUint.Set ⟨0⟩ (AtomicUint.Add (AtomicUint.Set ⟨0⟩ cur) delta).1 ∧
      (delta < 2 ^ 64 →
        wrapsToU 64 ((cur : Int) - delta) (AtomicUint.Sub (AtomicUint.Set ⟨0⟩ cur) delta).1 ∧
        (AtomicUint.Sub (AtomicUint.Set ⟨0⟩ cur) delta).2 =
          AtomicUint.Set ⟨0⟩ (AtomicUint.Sub (AtomicUint.Set ⟨0⟩ cur) delta).1)) ∧
    (∀ cur delta : Nat,
      wrapsToU 32 ((cur : Int) + delta) (AtomicUint32.Add (AtomicUint32.Set ⟨0⟩ cur) delta).1 ∧
      (AtomicUint32.Add (AtomicUint32.Set ⟨0⟩ cur) delta).2 =
        AtomicUint32.Set ⟨0⟩ (AtomicUint32.Add (AtomicUint32.Set ⟨0⟩ cur) delta).1 ∧
      (delta < 2 ^ 32 →
        wrapsToU 32 ((cur : Int) - delta) (AtomicUint32.Sub (AtomicUint32.Set ⟨0⟩ cur) delta).1 ∧
        (AtomicUint32.Sub (AtomicUint32.Set ⟨0⟩ cur) delta).2 =
          AtomicUint32.Set ⟨0⟩ (AtomicUint32.Sub (AtomicUint32.Set ⟨0⟩ cur) delta).1)) ∧
    (∀ cur delta : Nat,
      wrapsToU 64 ((cur : Int) + delta) (AtomicUint64.Add (AtomicUint64.Set ⟨0⟩ cur) delta).1 ∧
      (AtomicUint64.Add (AtomicUint64.Set ⟨0⟩ cur) delta).2 =
        AtomicUint64.Set ⟨0⟩ (AtomicUint64.Add (AtomicUint64.Set ⟨0⟩ cur) delta).1 ∧
      (delta < 2 ^ 64 →
        wrapsToU 64 ((cur : Int) - delta) (AtomicUint64.Sub (AtomicUint64.Set ⟨0⟩ cur) delta).1 ∧
        (AtomicUint64.Sub (AtomicUint64.Set ⟨0⟩ cur) delta).2 =
          AtomicUint64.Set ⟨0⟩ (AtomicUint64.Sub (AtomicUint64.Set ⟨0⟩ cur) delta).1)) ∧
    (∀ cur delta : Nat,
      wrapsToU 64 ((cur : Int) + delta) (AtomicUintptr.Add (AtomicUintptr.Set ⟨0⟩ cur) delta).1 ∧
      (AtomicUintptr.Add (AtomicUintptr.Set ⟨0⟩ cur) delta).2 =
        AtomicUintptr.Set ⟨0⟩ (AtomicUintptr.Add (AtomicUintptr.Set ⟨0⟩ cur) delta).1 ∧
      (delta < 2 ^ 64 →
        wrapsToU 64 ((cur : Int) - delta) (AtomicUintptr.Sub (AtomicUintptr.Set ⟨0⟩ cur) delta).1 ∧
        (AtomicUintptr.Sub (AtomicUintptr.Set ⟨0⟩ cur) delta).2 =
          AtomicUintptr.Set ⟨0⟩ (AtomicUintptr.Sub (AtomicUintptr.Set ⟨0⟩ cur) delta).1)) ∧
    (∀ cur delta : Int,
      wrapsToS 64 (cur + delta) (AtomicDuration.Add (AtomicDuration.Set ⟨0⟩ cur) delta).1 ∧
      (AtomicDuration.Add (AtomicDuration.Set ⟨0⟩ cur) delta).2 =
        AtomicDuration.Set ⟨0⟩ (AtomicDuration.Add (AtomicDuration.Set ⟨0⟩ cur) delta).1 ∧
      wrapsToS 64 (cur - delta) (AtomicDuration.Sub (AtomicDuration.Set ⟨0⟩ cur) delta).1 ∧
      (AtomicDuration.Sub (AtomicDuration.Set ⟨0⟩ cur) delta).2 =
        AtomicDuration.Set ⟨0⟩ (AtomicDuration.Sub (AtomicDuration.Set ⟨0⟩ cur) delta).1) ∧
    ((AtomicInt32.Add (AtomicInt32.Set ⟨0⟩ 2147483647) 1).1 = -2147483648 ∧
      (AtomicInt32.Add (AtomicInt32.Set ⟨0⟩ 2147483647) 1).2 =
        AtomicInt32.Set ⟨0⟩ (-2147483648) ∧
      (AtomicInt32.Sub (AtomicInt32.Set ⟨0⟩ (-2147483648)) 1).1 = 2147483647 ∧
      (AtomicInt32.Sub (AtomicInt32.Set ⟨0⟩ (-2147483648)) 1).2 =
        AtomicInt32.Set ⟨0⟩ 2147483647) := by
  have hswrap0 : ∀ (w : Nat) (x : Int), (2 ^ w : Int) ∣ x - x := by
    intro w x
    simp
  have hsub : ∀ (w : Nat) (cur delta : Int),
      (2 ^ w : Int) ∣ (cur + swrap w (-delta)) - (cur - delta) := by
    intro w cur delta
    have h := swrap_dvd w (-delta)
    have heq : (cur + swrap w (-delta)) - (cur - delta) = swrap w (-delta) - (-delta) := by
      ring
    rw [heq]
    exact h
  refine ⟨?_, ?_, ?_, ?_, ?_, ?_, ?_, ?_, by decide⟩
  · intro cur delta
    have h64i : (2 : Int) ^ 64 = 18446744073709551616 := by norm_num
    have h63i : (2 : Int) ^ 63 = 9223372036854775808 := by norm_num
    have h64n : (2 : Nat) ^ 64 = 18446744073709551616 := by norm_num
    have h63n : (2 : Nat) ^ 63 = 9223372036854775808 := by norm_num
    have hlt : ∀ a : Nat, a % 2 ^ 64 < 2 ^ 64 := fun a => Nat.mod_lt _ (by positivity)
    refine ⟨?_, ?_, ?_, ?_⟩
    · show wrapsToS 64 (cur + delta)
        (intOfUintptr (uadd 64 (uintptrOfInt cur) (uintptrOfInt delta)))
    
      simp only [wrapsToS, uadd, uintptrOfInt, intOfUintptr, h64i, h63i, h64n, h63n]
      norm_num
      split <;> omega
    · show (⟨uadd 64 (uintptrOfInt cur) (uintptrOfInt delta)⟩ : AtomicInt) =
        ⟨uintptrOfInt (intOfUintptr (uadd 64 (uintptrOfInt cur) (uintptrOfInt delta)))⟩
      rw [uintptrOfInt_intOfUintptr _ (by unfold uadd; exact hlt _)]
    · show wrapsToS 64 (cur - delta)
        (intOfUintptr (uadd 64 (uintptrOfInt cur) (uintptrOfInt (swrap 64 (-delta)))))
      simp only [wrapsToS, uadd, uintptrOfInt, intOfUintptr, swrap, h64i, h63i, h64n, h63n]
      norm_num
      split <;> omega
    · show (⟨uadd 64 (uintptrOfInt cur) (uintptrOfInt (swrap 64 (-delta)))⟩ : AtomicInt) =
        ⟨uintptrOfInt (intOfUintptr (uadd 64 (uintptrOfInt cur) (uintptrOfInt (swrap 64 (-delta)))))⟩
      rw [uintptrOfInt_intOfUintptr _ (by unfold uadd; exact hlt _)]
  · intro cur delta
    refine ⟨?_, rfl, ?_, rfl⟩
    · exact wrapsToS_swrap 32 (by norm_num) (hswrap0 32 (cur + delta))
    · exact wrapsToS_swrap 32 (by norm_num) (hsub 32 cur delta)
  · intro cur delta
    refine ⟨?_, rfl, ?_, rfl⟩
    · exact wrapsToS_swrap 64 (by norm_num) (hswrap0 64 (cur + delta))
    · exact wrapsToS_swrap 64 (by norm_num) (hsub 64 cur delta)
  · intro cur delta
    refine ⟨?_, rfl, fun hd => ⟨?_, rfl⟩⟩
    · exact wrapsToU_mod 64 (cur + delta) _ (by push_cast; simp)
    · show wrapsToU 64 ((cur : Int) - delta)
        (uadd 64 cur (unot 64 (usub 64 delta 1)))
      rw [show uadd 64 cur (unot 64 (usub 64 delta 1))
          = (cur + unot 64 (usub 64 delta 1)) % 2 ^ 64 from rfl,
        unot_usub_one64 delta hd]
      refine wrapsToU_mod 64 _ _ ?_
      have h64n : (2 : Nat) ^ 64 = 18446744073709551616 := by norm_num
      have h64i : (2 : Int) ^ 64 = 18446744073709551616 := by norm_num
      simp only [h64n, h64i] at hd ⊢
      omega
  · intro cur delta
    refine ⟨?_, rfl, fun hd => ⟨?_, rfl⟩⟩
    · exact wrapsToU_mod 32 (cur + delta) _ (by push_cast; simp)
    · show wrapsToU 32 ((cur : Int) - delta)
        (uadd 32 cur (unot 32 (usub 32 delta 1)))
      rw [show uadd 32 cur (unot 32 (usub 32 delta 1))
          = (cur + unot 32 (usub 32 delta 1)) % 2 ^ 32 from rfl,
        unot_usub_one32 delta hd]
      refine wrapsToU_mod 32 _ _ ?_
      have h32n : (2 : Nat) ^ 32 = 4294967296 := by norm_num
      have h32i : (2 : Int) ^ 32 = 4294967296 := by norm_num
      simp only [h32n, h32i] at hd ⊢
      omega
  · intro cur delta
    refine ⟨?_, rfl, fun hd => ⟨?_, rfl⟩⟩
    · exact wrapsToU_mod 64 (cur + delta) _ (by push_cast; simp)
    · show wrapsToU 64 ((cur : Int) - delta)
        (uadd 64 cur (unot 64 (usub 64 delta 1)))
      rw [show uadd 64 cur (unot 64 (usub 64 delta 1))
          = (cur + unot 64 (usub 64 delta 1)) % 2 ^ 64 from rfl,
        unot_usub_one64 delta hd]
      refine wrapsToU_mod 64 _ _ ?_
      have h64n : (2 : Nat) ^ 64 = 18446744073709551616 := by norm_num
      have h64i : (2 : Int) ^ 64 = 18446744073709551616 := by norm_num
      simp only [h64n, h64i] at hd ⊢
      omega
  · intro cur delta
    refine ⟨?_, rfl, fun hd => ⟨?_, rfl⟩⟩
    · exact wrapsToU_mod 64 (cur + delta) _ (by push_cast; simp)
    · show wrapsToU 64 ((cur : Int) - delta)
        (uadd 64 cur (unot 64 (usub 64 delta 1)))
      rw [show uadd 64 cur (unot 64 (usub 64 delta 1))
          = (cur + unot 64 (usub 64 delta 1)) % 2 ^ 64 from rfl,
        unot_usub_one64 delta hd]
      refine wrapsToU_mod 64 _ _ ?_
      have h64n : (2 : Nat) ^ 64 = 18446744073709551616 := by norm_num
      have h64i : (2 : Int) ^ 64 = 18446744073709551616 := by norm_num
      simp only [h64n, h64i] at hd ⊢
      omega
  · intro cur delta
    refine ⟨?_, rfl, ?_, rfl⟩
    · exact wrapsToS_swrap 64 (by norm_num) (hswrap0 64 (cur + delta))
    · exact wrapsToS_swrap 64 (by norm_num) (hsub 64 cur delta)

/-- Witness for `add_sub_wraparound`: the unsigned Sub conjuncts applied
at concrete in-range deltas. -/
theorem add_sub_wraparound_witness :
    wrapsToU 32 ((0 : Int) - 5) (AtomicUint32.Sub (AtomicUint32.Set ⟨0⟩ 0) 5).1 ∧
    wrapsToU 64 ((0 : Int) - 5) (AtomicUint.Sub (AtomicUint.Set ⟨0⟩ 0) 5).1 ∧
    wrapsToU 64 ((0 : Int) - 5) (AtomicUint64.Sub (AtomicUint64.Set ⟨0⟩ 0) 5).1 ∧
    wrapsToU 64 ((0 : Int) - 5) (AtomicUintptr.Sub (AtomicUintptr.Set ⟨0⟩ 0) 5).1 := by
  obtain ⟨-, -, -, hU, hU32, hU64, hUp, -, -⟩ := add_sub_wraparound
  exact ⟨((hU32 0 5).2.2 (by norm_num)).1, ((hU 0 5).2.2 (by norm_num)).1,
    ((hU64 0 5).2.2 (by norm_num)).1, ((hUp 0 5).2.2 (by norm_num)).1⟩

/-- Spec-side definition for the refinement claim C8, following the spec's
words: the two's-complement additive inverse of `delta` at width `w`, the
unique `w`-bit value that added to `delta` gives 0 modulo `2 ^ w`. -/
def twosComplementInverse (w delta : Nat) : Nat := (2 ^ w - delta % 2 ^ w) % 2 ^ w

/-- C8: for the unsigned wrappers (Uint, Uint32, Uint64, Uintptr), the
complement-based Sub implementation `Add(^(delta - 1))` is extensionally
equal to adding the two's-complement additive inverse of `delta`: for
every current value `cur` and every `delta` of the unsigned type
(including 0 and the maximum), `Sub(delta)` produces exactly the state and
return value of `Add` of the inverse, and it returns and stores
`cur - delta` modulo `2 ^ w`. -/
theorem unsigned_sub_complement :
    (∀ cur delta : Nat, delta < 2 ^ 64 →
      AtomicUint.Sub ⟨cur⟩ delta = AtomicUint.Add ⟨cur⟩ (twosComplementInverse 64 delta) ∧
      ((AtomicUint.Sub ⟨cur⟩ delta).1 : Int) = ((cur : Int) - delta) % 2 ^ 64 ∧
      (((AtomicUint.Sub ⟨cur⟩ delta).2.value : Nat) : Int) = ((cur : Int) - delta) % 2 ^ 64) ∧
    (∀ cur delta : Nat, delta < 2 ^ 32 →
      AtomicUint32.Sub ⟨cur⟩ delta = AtomicUint32.Add ⟨cur⟩ (twosComplementInverse 32 delta) ∧
      ((AtomicUint32.Sub ⟨cur⟩ delta).1 : Int) = ((cur : Int) - delta) % 2 ^ 32 ∧
      (((AtomicUint32.Sub ⟨cur⟩ delta).2.value : Nat) : Int) = ((cur : Int) - delta) % 2 ^ 32) ∧
    (∀ cur delta : Nat, delta < 2 ^ 64 →
      AtomicUint64.Sub ⟨cur⟩ delta = AtomicUint64.Add ⟨cur⟩ (twosComplementInverse 64 delta) ∧
      ((AtomicUint64.Sub ⟨cur⟩ delta).1 : Int) = ((cur : Int) - delta) % 2 ^ 64 ∧
      (((AtomicUint64.Sub ⟨cur⟩ delta).2.value : Nat) : Int) = ((cur : Int) - delta) % 2 ^ 64) ∧
    (∀ cur delta : Nat, delta < 2 ^ 64 →
      AtomicUintptr.Sub ⟨cur⟩ delta = AtomicUintptr.Add ⟨cur⟩ (twosComplementInverse 64 delta) ∧
      ((AtomicUintptr.Sub ⟨cur⟩ delta).1 : Int) = ((cur : Int) - delta) % 2 ^ 64 ∧
      (((AtomicUintptr.Sub ⟨cur⟩ delta).2.value : Nat) : Int) = ((cur : Int) - delta) % 2 ^ 64) := by
  have key64 : ∀ delta : Nat, delta < 2 ^ 64 →
      unot 64 (usub 64 delta 1) = twosComplementInverse 64 delta := by
    intro delta hd
    rw [unot_usub_one64 delta hd]
    unfold twosComplementInverse
    rw [Nat.mod_eq_of_lt hd]
  have key32 : ∀ delta : Nat, delta < 2 ^ 32 →
      unot 32 (usub 32 delta 1) = twosComplementInverse 32 delta := by
    intro delta hd
    rw [unot_usub_one32 delta hd]
    unfold twosComplementInverse
    rw [Nat.mod_eq_of_lt hd]
  have val64 : ∀ cur delta : Nat, delta < 2 ^ 64 →
      ((uadd 64 cur (unot 64 (usub 64 delta 1)) : Nat) : Int) = ((cur : Int) - delta) % 2 ^ 64 := by
    intro cur delta hd
    rw [unot_usub_one64 delta hd]
    have h64n : (2 : Nat) ^ 64 = 18446744073709551616 := by norm_num
    have h64i : (2 : Int) ^ 64 = 18446744073709551616 := by norm_num
    simp only [uadd, h64n, h64i] at hd ⊢
    omega
  have val32 : ∀ cur delta : Nat, delta < 2 ^ 32 →
      ((uadd 32 cur (unot 32 (usub 32 delta 1)) : Nat) : Int) = ((cur : Int) - delta) % 2 ^ 32 := by
    intro cur delta hd
    rw [unot_usub_one32 delta hd]
    have h32n : (2 : Nat) ^ 32 = 4294967296 := by norm_num
    have h32i : (2 : Int) ^ 32 = 4294967296 := by norm_num
    simp only [uadd, h32n, h32i] at hd ⊢
    omega
  refine ⟨?_, ?_, ?_, ?_⟩
  · intro cur delta hd
    refine ⟨?_, val64 cur delta hd, val64 cur delta hd⟩
    unfold AtomicUint.Sub
    rw [key64 delta hd]
  · intro cur delta hd
    refine ⟨?_, val32 cur delta hd, val32 cur delta hd⟩
    unfold AtomicUint32.Sub
    rw [key32 delta hd]
  · intro cur delta hd
    refine ⟨?_, val64 cur delta hd, val64 cur delta hd⟩
    unfold AtomicUint64.Sub
    rw [key64 delta hd]
  · intro cur delta hd
    refine ⟨?_, val64 cur delta hd, val64 cur delta hd⟩
    unfold AtomicUintptr.Sub
    rw [key64 delta hd]

/-- Witness for `unsigned_sub_complement`: Uint32 at the boundary deltas 0
and the maximum 4294967295. -/
theorem unsigned_sub_complement_witness :
    AtomicUint32.Sub ⟨5⟩ 0 = AtomicUint32.Add ⟨5⟩ (twosComplementInverse 32 0) ∧
    ((AtomicUint32.Sub ⟨5⟩ 0).1 : Int) = ((5 : Int) - 0) % 2 ^ 32 ∧
    ((AtomicUint32.Sub ⟨0⟩ 4294967295).1 : Int) = ((0 : Int) - 4294967295) % 2 ^ 32 := by
  obtain ⟨-, h32, -, -⟩ := unsigned_sub_complement
  exact ⟨(h32 5 0 (by norm_num)).1, (h32 5 0 (by norm_num)).2.1,
    (h32 0 4294967295 (by norm_num)).2.1⟩

/-- C6: for the Error wrapper, the internal sentinel never escapes and nil
round-trips: before any Set, `Value()` returns nil; after `Set(nil)`,
`Value()` returns nil; after `Set(v)` (any value, in particular any
non-nil client error) followed by `Set(nil)`, `Value()` returns nil (not
the sentinel and not the stale error); and no state of the wrapper ever
returns the sentinel `errNil` from `Value()`. -/
theorem error_nil_roundtrip :
    AtomicError.Value ⟨none⟩ = none ∧
    (∀ e : AtomicError, (e.Set none).Value = none) ∧
    (∀ (e : AtomicError) (v : Option GoErr), ((e.Set v).Set none).Value = none) ∧
    (∀ (e : AtomicError) (id : Nat),
      ((e.Set (some (GoErr.client id))).Set none).Value = none) ∧
    (∀ e : AtomicError, e.Value ≠ some GoErr.errNil) := by
  refine ⟨rfl, fun e => ?_, fun e v => ?_, fun e id => ?_, fun e => ?_⟩
  · simp [AtomicError.Set, AtomicError.Value]
  · simp [AtomicError.Set, AtomicError.Value]
  · simp [AtomicError.Set, AtomicError.Value]
  · cases he : e.value with
    | none => simp [AtomicError.Value, he]
    | some err =>
      by_cases h : err = GoErr.errNil <;> simp [AtomicError.Value, he, h]

/-- Witness for `error_nil_roundtrip`: concrete states, including the
no-escape conjunct at the state that holds the sentinel itself. -/
theorem error_nil_roundtrip_witness :
    AtomicError.Value
      (AtomicError.Set (AtomicError.Set ⟨none⟩ (some (GoErr.client 7))) none) = none ∧
    ¬AtomicError.Value ⟨some GoErr.errNil⟩ = some GoErr.errNil :=
  ⟨error_nil_roundtrip.2.2.2.1 ⟨none⟩ 7,
   error_nil_roundtrip.2.2.2.2 ⟨some GoErr.errNil⟩⟩

/-- C7: for the generic Value wrapper, Set with nil, or Set with a value
whose concrete type differs from the type stored by the earlier Sets,
panics and leaves the stored value unchanged; every other Set succeeds and
a subsequent `Value()` returns that most recently stored value; `Value()`
returns nil if Set was never called. -/
theorem value_set_contract :
    (∀ s : AtomicValue, (s.Set none).1 = true ∧ (s.Set none).2 = s) ∧
    (∀ (s : AtomicValue) (a b : GoAny), s.value = some b → a.ty ≠ b.ty →
      (s.Set (some a)).1 = true ∧ (s.Set (some a)).2 = s) ∧
    (∀ a : GoAny, (AtomicValue.Set ⟨none⟩ (some a)).1 = false) ∧
    (∀ (s : AtomicValue) (a b : GoAny), s.value = some b → a.ty = b.ty →
      (s.Set (some a)).1 = false) ∧
    (∀ (s : AtomicValue) (a : GoAny), (s.Set (some a)).1 = false →
      AtomicValue.Value (s.Set (some a)).2 = some a) ∧
    AtomicValue.Value ⟨none⟩ = none := by
  refine ⟨fun s => ⟨rfl, rfl⟩, ?_, fun a => rfl, ?_, ?_, rfl⟩
  · intro s a b hs hty
    constructor <;> simp [AtomicValue.Set, hs, hty]
  · intro s a b hs hty
    simp [AtomicValue.Set, hs, hty]
  · intro s a h
    match v : s.value with
    | none =>
      simp [AtomicValue.Set, v, AtomicValue.Value]
    | some b =>
      simp only [AtomicValue.Set, v] at h ⊢
      by_cases hty : a.ty = b.ty
      · simp [hty, AtomicValue.Value]
      · simp [hty] at h

/-- Witness for `value_set_contract`: a type-mismatching Set panics and
keeps the state; a type-matching Set succeeds and is read back. -/
theorem value_set_contract_witness :
    (AtomicValue.Set ⟨some ⟨1, 2⟩⟩ (some ⟨2, 9⟩)).1 = true ∧
    (AtomicValue.Set ⟨some ⟨1, 2⟩⟩ (some ⟨2, 9⟩)).2 = ⟨some ⟨1, 2⟩⟩ ∧
    (AtomicValue.Set ⟨some ⟨1, 2⟩⟩ (some ⟨1, 9⟩)).1 = false ∧
    AtomicValue.Value (AtomicValue.Set ⟨some ⟨1, 2⟩⟩ (some ⟨1, 9⟩)).2 = some ⟨1, 9⟩ := by
  obtain ⟨h1, h2, h3, h4, h5, h6⟩ := value_set_contract
  obtain ⟨ha, hb⟩ := h2 ⟨some ⟨1, 2⟩⟩ ⟨2, 9⟩ ⟨1, 2⟩ rfl (by decide)
  exact ⟨ha, hb, h4 _ ⟨1, 9⟩ ⟨1, 2⟩ rfl rfl, h5 _ ⟨1, 9⟩ (h4 _ ⟨1, 9⟩ ⟨1, 2⟩ rfl rfl)⟩

/-- Mutating operations of the `atom.Bool` wrapper. -/
inductive BoolOp where
  | set (v : Bool)
  | swap (v : Bool)
  | cas (old new : Bool)

/-- Apply one `atom.Bool` operation, keeping only the state. -/
def applyBoolOp (b : AtomicBool) : BoolOp → AtomicBool
  | BoolOp.set v => b.Set v
  | BoolOp.swap v => (b.Swap v).2
  | BoolOp.cas o n => (b.CompareAndSwap o n).2

/-- Run a sequence of `atom.Bool` operations from the zero-initialized
wrapper. -/
def runBoolOps (ops : List BoolOp) : AtomicBool :=
  ops.foldl applyBoolOp ⟨0⟩

theorem applyBoolOp_le_one (b : AtomicBool) (op : BoolOp) (h : b.value ≤ 1) :
    (applyBoolOp b op).value ≤ 1 := by
  cases op with
  | set v => cases v <;> simp [applyBoolOp, AtomicBool.Set]
  | swap v => cases v <;> simp [applyBoolOp, AtomicBool.Swap]
  | cas o n =>
    cases o <;> cases n <;>
      simp only [applyBoolOp, AtomicBool.CompareAndSwap, casNat] <;>
      (repeat' split) <;> simp_all

theorem runBoolOps_le_one (ops : List BoolOp) : (runBoolOps ops).value ≤ 1 := by
  have key : ∀ (l : List BoolOp) (b : AtomicBool), b.value ≤ 1 →
      (l.foldl applyBoolOp b).value ≤ 1 := by
    intro l
    induction l with
    | nil => intro b h; exact h
    | cons op t ih =>
      intro b h
      exact ih _ (applyBoolOp_le_one b op h)
  exact key ops ⟨0⟩ (by norm_num)

/-- C10: starting from the zero-initialized state, every sequence of Bool
operations (Set, Swap, CompareAndSwap) leaves the underlying uint32 slot
at 0 or 1; hence the `greater than zero` decoding used by Value and Swap
coincides with `equals 1`, and the CAS encoding of the expected old value
can never miss a match because of a stored nonzero value other than 1:
CAS succeeds exactly when the decoded current value equals `old`. -/
theorem bool_slot_invariant :
    ∀ ops : List BoolOp,
      ((runBoolOps ops).value = 0 ∨ (runBoolOps ops).value = 1) ∧
      AtomicBool.Value (runBoolOps ops) = decide ((runBoolOps ops).value = 1) ∧
      (∀ v : Bool, ((runBoolOps ops).Swap v).1 = decide ((runBoolOps ops).value = 1)) ∧
      (∀ old new : Bool, ((runBoolOps ops).CompareAndSwap old new).1
        = ((runBoolOps ops).Value == old)) := by
  intro ops
  have hle := runBoolOps_le_one ops
  have h01 : (runBoolOps ops).value = 0 ∨ (runBoolOps ops).value = 1 := by omega
  rcases h01 with h | h
  · refine ⟨Or.inl h, ?_, ?_, ?_⟩
    · simp [AtomicBool.Value, h]
    · intro v
      cases v <;> simp [AtomicBool.Swap, h]
    · intro old new
      cases old <;> cases new <;>
        simp [AtomicBool.CompareAndSwap, AtomicBool.Value, casNat, h]
  · refine ⟨Or.inr h, ?_, ?_, ?_⟩
    · simp [AtomicBool.Value, h]
    · intro v
      cases v <;> simp [AtomicBool.Swap, h]
    · intro old new
      cases old <;> cases new <;>
        simp [AtomicBool.CompareAndSwap, AtomicBool.Value, casNat, h]

set_option maxRecDepth 8000 in
set_option exponentiation.threshold 3000 in
/-- C5: CompareAndSwap on Float32 and Float64 compares raw IEEE-754 bit
patterns, not numeric values.  With the wrapper holding -0.0 (pattern
2^31 resp. 2^63), a CAS expecting +0.0 (pattern 0) fails and leaves the
value unchanged even though +0.0 and -0.0 are numerically equal, and a
CAS whose `old` has the identical NaN bit pattern as the current content
succeeds even though a NaN is numerically unequal to itself. -/
theorem float_cas_bitwise :
    (∀ new : GoFloat32,
      AtomicFloat32.CompareAndSwap (AtomicFloat32.Set ⟨0⟩ (Float32frombits 2147483648))
        (Float32frombits 0) new
        = (false, AtomicFloat32.Set ⟨0⟩ (Float32frombits 2147483648))) ∧
    FloatClass.numEq (decodeFloat32 (Float32frombits 0))
      (decodeFloat32 (Float32frombits 2147483648)) = true ∧
    (∀ new : GoFloat32,
      AtomicFloat32.CompareAndSwap (AtomicFloat32.Set ⟨0⟩ (Float32frombits 2143289344))
        (Float32frombits 2143289344) new = (true, AtomicFloat32.Set ⟨0⟩ new)) ∧
    decodeFloat32 (Float32frombits 2143289344) = FloatClass.nan ∧
    FloatClass.numEq (decodeFloat32 (Float32frombits 2143289344))
      (decodeFloat32 (Float32frombits 2143289344)) = false ∧
    (∀ new : GoFloat64,
      AtomicFloat64.CompareAndSwap
        (AtomicFloat64.Set ⟨0⟩ (Float64frombits 9223372036854775808))
        (Float64frombits 0) new
        = (false, AtomicFloat64.Set ⟨0⟩ (Float64frombits 9223372036854775808))) ∧
    FloatClass.numEq (decodeFloat64 (Float64frombits 0))
      (decodeFloat64 (Float64frombits 9223372036854775808)) = true ∧
    (∀ new : GoFloat64,
      AtomicFloat64.CompareAndSwap
        (AtomicFloat64.Set ⟨0⟩ (Float64frombits 9221120237041090560))
        (Float64frombits 9221120237041090560) new = (true, AtomicFloat64.Set ⟨0⟩ new)) ∧
    decodeFloat64 (Float64frombits 9221120237041090560) = FloatClass.nan ∧
    FloatClass.numEq (decodeFloat64 (Float64frombits 9221120237041090560))
      (decodeFloat64 (Float64frombits 9221120237041090560)) = false := by
  refine ⟨?_, ?_, ?_, ?_, ?_, ?_, ?_, ?_, ?_, ?_⟩
  · intro new
    simp [AtomicFloat32.CompareAndSwap, AtomicFloat32.Set, Float32frombits, Float32bits,
      casNat]
  · norm_num [decodeFloat32, Float32frombits, FloatClass.numEq]
  · intro new
    simp [AtomicFloat32.CompareAndSwap, AtomicFloat32.Set, Float32frombits, Float32bits,
      casNat]
  · norm_num [decodeFloat32, Float32frombits]
  · norm_num [decodeFloat32, Float32frombits, FloatClass.numEq]
  · intro new
    simp [AtomicFloat64.CompareAndSwap, AtomicFloat64.Set, Float64frombits, Float64bits,
      casNat]
  · norm_num [decodeFloat64, Float64frombits, FloatClass.numEq]
  · intro new
    simp [AtomicFloat64.CompareAndSwap, AtomicFloat64.Set, Float64frombits, Float64bits,
      casNat]
  · norm_num [decodeFloat64, Float64frombits]
  · norm_num [decodeFloat64, Float64frombits, FloatClass.numEq]

/-- One step of a binary search for the floor base-2 logarithm: if
`2 ^ k ≤ n`, divide out `2 ^ k` and add `k` to the accumulator. -/
def log2step (k : Nat) (st : Nat × Nat) : Nat × Nat :=
  if 2 ^ k ≤ st.1 then (st.1 / 2 ^ k, st.2 + k) else st

/-- Floor base-2 logarithm, exact for every `n < 2 ^ 4096` (which covers
every integer arising while adding two binary32 or binary64 values); the
binary search keeps the definition free of unbounded recursion so the
kernel can evaluate it. -/
def log2n (n : Nat) : Nat :=
  (log2step 1 (log2step 2 (log2step 4 (log2step 8 (log2step 16 (log2step 32
    (log2step 64 (log2step 128 (log2step 256 (log2step 512 (log2step 1024
      (log2step 2048 (n, 0))))))))))))).2

/-- Round `a / 2 ^ k` to the nearest integer, ties to even. -/
def rne (a k : Nat) : Nat :=
  if k = 0 then a
  else
    let q := a / 2 ^ k
    let r := a % 2 ^ k
    let h := 2 ^ (k - 1)
    q + (if h < r ∨ (r = h ∧ q % 2 = 1) then 1 else 0)

/-- Encode the correctly rounded (round-to-nearest, ties-to-even) IEEE-754
representation of `(-1)^sign * A * 2 ^ b` (with `A > 0`) in the format
with `mb` mantissa bits, `eb` exponent bits and exponent bias `bias`.
Returns the bit pattern; overflow produces the signed infinity and a
result rounding below the smallest subnormal produces the signed zero. -/
def encodeRounded (mb eb : Nat) (bias : Int) (sign : Bool) (A : Nat) (b : Int) : Nat :=
  let sgn : Nat := if sign then 2 ^ (mb + eb) else 0
  let emin : Int := 1 - bias
  let emax : Int := (2 ^ eb : Int) - 2 - bias
  let p : Int := (log2n A : Int) + b
  let E : Int := max p emin
  let s : Int := E - mb - b
  let Q : Nat := if s ≤ 0 then A * 2 ^ (-s).toNat else rne A s.toNat
  let E2 : Int := if Q = 2 ^ (mb + 1) then E + 1 else E
  let Q2 : Nat := if Q = 2 ^ (mb + 1) then 2 ^ mb else Q
  if emax < E2 then sgn + (2 ^ eb - 1) * 2 ^ mb
  else if Q2 < 2 ^ mb then sgn + Q2
  else sgn + (E2 + bias).toNat * 2 ^ mb + (Q2 - 2 ^ mb)

/-- IEEE-754 addition (round to nearest, ties to even) on bit patterns of
the format with `mb` mantissa bits and `eb` exponent bits, as performed by
Go's `+` on `float32` (`floatAdd 23 8 127`) and on `float64`
(`floatAdd 52 11 1023`).  NaN results are given the canonical quiet NaN
pattern. -/
def floatAdd (mb eb : Nat) (bias : Int) (x y : Nat) : Nat :=
  let width := mb + eb + 1
  let bx := x % 2 ^ width
  let yb := y % 2 ^ width
  let sx := bx / 2 ^ (mb + eb)
  let sy := yb / 2 ^ (mb + eb)
  let ex := bx / 2 ^ mb % 2 ^ eb
  let ey := yb / 2 ^ mb % 2 ^ eb
  let mx := bx % 2 ^ mb
  let my := yb % 2 ^ mb
  let qnan := (2 ^ eb - 1) * 2 ^ mb + 2 ^ (mb - 1)
  if ex = 2 ^ eb - 1 ∧ mx ≠ 0 then qnan
  else if ey = 2 ^ eb - 1 ∧ my ≠ 0 then qnan
  else if ex = 2 ^ eb - 1 ∧ ey = 2 ^ eb - 1 then (if sx = sy then bx else qnan)
  else if ex = 2 ^ eb - 1 then bx
  else if ey = 2 ^ eb - 1 then yb
  else
    let ux := max ex 1
    let uy := max ey 1
    let u0 := min ux uy
    let ax : Int := (if ex = 0 then (mx : Int) else (2 ^ mb + mx : Int))
      * (if sx = 1 then -1 else 1)
    let ay : Int := (if ey = 0 then (my : Int) else (2 ^ mb + my : Int))
      * (if sy = 1 then -1 else 1)
    let s : Int := ax * 2 ^ (ux - u0) + ay * 2 ^ (uy - u0)
    if s = 0 then (if sx = 1 ∧ sy = 1 then 2 ^ (mb + eb) else 0)
    else encodeRounded mb eb bias (decide (s < 0)) s.natAbs ((u0 : Int) - bias - mb)

/-- Go `float32` addition `old + delta`: IEEE-754 binary32, correctly
rounded. -/
def GoFloat32.add (x y : GoFloat32) : GoFloat32 := ⟨floatAdd 23 8 127 x.bits y.bits⟩

/-- Go `float32` negation `-x`: flips the sign bit, exactly. -/
def GoFloat32.neg (x : GoFloat32) : GoFloat32 :=
  ⟨if x.bits % 2 ^ 32 < 2 ^ 31 then x.bits % 2 ^ 32 + 2 ^ 31 else x.bits % 2 ^ 32 - 2 ^ 31⟩

/-- Go `float64` addition `old + delta`: IEEE-754 binary64, correctly
rounded. -/
def GoFloat64.add (x y : GoFloat64) : GoFloat64 := ⟨floatAdd 52 11 1023 x.bits y.bits⟩

/-- Go `float64` negation `-x`: flips the sign bit, exactly. -/
def GoFloat64.neg (x : GoFloat64) : GoFloat64 :=
  ⟨if x.bits % 2 ^ 64 < 2 ^ 63 then x.bits % 2 ^ 64 + 2 ^ 63 else x.bits % 2 ^ 64 - 2 ^ 63⟩

/-- Go `Float32.Add` under single-threaded (uncontended) execution: the
CAS-retry loop reads the current value, computes `old + delta`, and its
CompareAndSwap succeeds on the first iteration because no other writer
intervenes, so the loop body runs exactly once. -/
def AtomicFloat32.Add (f : AtomicFloat32) (delta : GoFloat32) : GoFloat32 × AtomicFloat32 :=
  let old := f.Value
  let n := GoFloat32.add old delta
  (n, (f.CompareAndSwap old n).2)

/-- Go `Float32.Sub`: `f.Add(-delta)`. -/
def AtomicFloat32.Sub (f : AtomicFloat32) (delta : GoFloat32) : GoFloat32 × AtomicFloat32 :=
  AtomicFloat32.Add f (GoFloat32.neg delta)

/-- Go `Float64.Add` under single-threaded (uncontended) execution; see
`AtomicFloat32.Add`. -/
def AtomicFloat64.Add (f : AtomicFloat64) (delta : GoFloat64) : GoFloat64 × AtomicFloat64 :=
  let old := f.Value
  let n := GoFloat64.add old delta
  (n, (f.CompareAndSwap old n).2)

/-- Go `Float64.Sub`: `f.Add(-delta)`. -/
def AtomicFloat64.Sub (f : AtomicFloat64) (delta : GoFloat64) : GoFloat64 × AtomicFloat64 :=
  AtomicFloat64.Add f (GoFloat64.neg delta)

set_option maxRecDepth 100000 in
set_option exponentiation.threshold 5000 in
/-- Counterexample to C4: with the Float32 wrapper holding 1.0 (bits
1065353216 = 0x3F800000) and delta 2^25 (bits 1275068416 = 0x4C000000),
`Add(delta)` rounds 1.0 + 2^25 to 2^25 (the 1.0 is absorbed), so the
following `Sub(delta)` leaves +0.0, not 1.0 — under single-threaded use
and bit-for-bit comparison the round-trip fails; the analogous Float64
instance uses 1.0 and 2^54. -/
theorem float_add_sub_not_roundtrip :
    AtomicFloat32.Value
      (AtomicFloat32.Sub
        (AtomicFloat32.Add (AtomicFloat32.Set ⟨0⟩ (Float32frombits 1065353216))
          (Float32frombits 1275068416)).2
        (Float32frombits 1275068416)).2 ≠ Float32frombits 1065353216 ∧
    AtomicFloat64.Value
      (AtomicFloat64.Sub
        (AtomicFloat64.Add (AtomicFloat64.Set ⟨0⟩ (Float64frombits 4607182418800017408))
          (Float64frombits 4850376798678024192)).2
        (Float64frombits 4850376798678024192)).2 ≠ Float64frombits 4607182418800017408 := by
  constructor <;> decide

/-- C4 (amended): for Float32 and Float64 under single-threaded use,
`Add(d)` followed by `Sub(d)` leaves the wrapper holding the correctly
rounded value `(x + d) + (-d)`, and the round-trip restores `x` exactly
(bit-for-bit) precisely when that doubly rounded value equals `x` — which
holds when the additions are exact, but not in general. -/
theorem float_add_sub_conditional :
    (∀ (f : AtomicFloat32) (d : GoFloat32),
      (AtomicFloat32.Sub (AtomicFloat32.Add f d).2 d).2 =
        AtomicFloat32.Set ⟨0⟩
          (GoFloat32.add (GoFloat32.add f.Value d) (GoFloat32.neg d)) ∧
      (GoFloat32.add (GoFloat32.add f.Value d) (GoFloat32.neg d) = f.Value →
        AtomicFloat32.Value (AtomicFloat32.Sub (AtomicFloat32.Add f d).2 d).2 = f.Value)) ∧
    (∀ (f : AtomicFloat64) (d : GoFloat64),
      (AtomicFloat64.Sub (AtomicFloat64.Add f d).2 d).2 =
        AtomicFloat64.Set ⟨0⟩
          (GoFloat64.add (GoFloat64.add f.Value d) (GoFloat64.neg d)) ∧
      (GoFloat64.add (GoFloat64.add f.Value d) (GoFloat64.neg d) = f.Value →
        AtomicFloat64.Value (AtomicFloat64.Sub (AtomicFloat64.Add f d).2 d).2 = f.Value)) := by
  constructor
  · intro f d
    have h1 : (AtomicFloat32.Sub (AtomicFloat32.Add f d).2 d).2 =
        AtomicFloat32.Set ⟨0⟩
          (GoFloat32.add (GoFloat32.add f.Value d) (GoFloat32.neg d)) := by
      simp [AtomicFloat32.Add, AtomicFloat32.Sub, AtomicFloat32.CompareAndSwap,
        AtomicFloat32.Set, AtomicFloat32.Value, Float32bits, Float32frombits, casNat]
    refine ⟨h1, fun h => ?_⟩
    rw [h1, h]
    rfl
  · intro f d
    have h1 : (AtomicFloat64.Sub (AtomicFloat64.Add f d).2 d).2 =
        AtomicFloat64.Set ⟨0⟩
          (GoFloat64.add (GoFloat64.add f.Value d) (GoFloat64.neg d)) := by
      simp [AtomicFloat64.Add, AtomicFloat64.Sub, AtomicFloat64.CompareAndSwap,
        AtomicFloat64.Set, AtomicFloat64.Value, Float64bits, Float64frombits, casNat]
    refine ⟨h1, fun h => ?_⟩
    rw [h1, h]
    rfl

set_option maxRecDepth 100000 in
set_option exponentiation.threshold 5000 in
/-- Witness for `float_add_sub_conditional`: both conditional round-trip
conjuncts at the exact case x = 1.0, d = 0.5, where no rounding occurs. -/
theorem float_add_sub_conditional_witness :
    AtomicFloat32.Value
      (AtomicFloat32.Sub
        (AtomicFloat32.Add (AtomicFloat32.Set ⟨0⟩ (Float32frombits 1065353216))
          (Float32frombits 1056964608)).2
        (Float32frombits 1056964608)).2 = Float32frombits 1065353216 ∧
    AtomicFloat64.Value
      (AtomicFloat64.Sub
        (AtomicFloat64.Add (AtomicFloat64.Set ⟨0⟩ (Float64frombits 4607182418800017408))
          (Float64frombits 4602678819172646912)).2
        (Float64frombits 4602678819172646912)).2 = Float64frombits 4607182418800017408 :=
  ⟨(float_add_sub_conditional.1 (AtomicFloat32.Set ⟨0⟩ (Float32frombits 1065353216))
      (Float32frombits 1056964608)).2 (by decide),
   (float_add_sub_conditional.2 (AtomicFloat64.Set ⟨0⟩ (Float64frombits 4607182418800017408))
      (Float64frombits 4602678819172646912)).2 (by decide)⟩
